import Mathlib

/-!
Verification of the quotex-sdk-ts market-data / indicator core.

Shallow embedding conventions:
* JS numbers are modelled as rationals (`ℚ`); `NaN`/`Infinity` never arise in
  the model (division by zero yields `0` in `ℚ`, where the source would yield
  `NaN`; no claim below depends on the value of such a quotient).
* `x || y` on numbers is `jsOrNum` (`0` is falsy), `x ?? y` is `Option.getD` /
  `List.getD` (only `undefined` falls through).
* JS `Map`s are association lists in insertion order (`AList.*` helpers mirror
  `get` / `set` / `delete` first-occurrence semantics); JS `Set`s of callbacks
  are duplicate-free lists of callback identifiers.
* `Array.prototype.sort` with comparator `(a, b) => a.time - b.time` is a
  stable sort by `time`; it is modelled by `List.insertionSort`, which is
  stable for the reflexive relation used here.
* Fallible code returns `Except String`.
-/

namespace Quotex

/-- Model of JS `a || b` on numbers: `0` is falsy (there is no `NaN` in the model). -/
def jsOrNum (a b : ℚ) : ℚ := if a = 0 then b else a

/-- Model of JS `a || b` where `a` may be `undefined` and `0` is falsy
    (used for `entry.time || entry.timestamp || entry.at`). -/
def jsOrOpt (a b : Option ℚ) : Option ℚ :=
  match a with
  | none => b
  | some x => if x = 0 then b else some x

/-- Model of `arr[arr.length - 1] || d`: last element, with `d` when the array is
    empty or its last element is `0` (JS falsy coercion). -/
def lastOrJs (l : List ℚ) (d : ℚ) : ℚ :=
  match l.getLast? with
  | none => d
  | some x => if x = 0 then d else x

/-- Specification-side reading of `current := series[series.length - 1] || d`:
    the default when the series is empty, the last element when it is nonzero,
    and the default again when the last element is `0` (JS falsy coercion). -/
def currentJs (series : List ℚ) (dflt current : ℚ) : Prop :=
  (series = [] → current = dflt) ∧
  ∀ x, series.getLast? = some x → current = if x = 0 then dflt else x

/-- Model of JS `list.slice(a, b)` for `a ≤ b` within bounds. -/
def sliceJs (l : List ℚ) (a b : ℕ) : List ℚ := (l.drop a).take (b - a)

/-- Model of `Math.max(...l)` for a non-empty `l` (`d` is never used on the paths the
    source reaches, where the spread argument is non-empty). -/
def listMaxD (l : List ℚ) (d : ℚ) : ℚ :=
  match l with
  | [] => d
  | x :: xs => xs.foldl max x

/-- Model of `Math.min(...l)` for a non-empty `l`. -/
def listMinD (l : List ℚ) (d : ℚ) : ℚ :=
  match l with
  | [] => d
  | x :: xs => xs.foldl min x

/-- Model of `Math.round(v * 100) / 100` (JS rounds half towards positive infinity). -/
def round2 (x : ℚ) : ℚ := ((⌊x * 100 + 1/2⌋ : ℤ) : ℚ) / 100

/-! ### Association-list model of JS `Map` (insertion order, unique keys). -/

namespace AList

variable {α β : Type} [DecidableEq α]

/-- Model of `map.get(k)` — first matching entry. -/
def get : List (α × β) → α → Option β
  | [], _ => none
  | (k, v) :: rest, a => if k = a then some v else get rest a

/-- Model of `map.set(k, v)` — replace in place if present, else append. -/
def set : List (α × β) → α → β → List (α × β)
  | [], a, v => [(a, v)]
  | (k, w) :: rest, a, v => if k = a then (k, v) :: rest else (k, w) :: set rest a v

/-- Model of `map.delete(k)` — remove the entry with key `k`.  A JS `Map` holds at most
    one entry per key, so removing every matching pair is the same operation
    and keeps the lemmas unconditional. -/
def erase : List (α × β) → α → List (α × β)
  | [], _ => []
  | (k, w) :: rest, a => if k = a then erase rest a else (k, w) :: erase rest a

/-- Model of `if (!map.has(k)) map.set(k, v)` — create a missing entry. -/
def ensure (m : List (α × β)) (a : α) (v : β) : List (α × β) :=
  if (get m a).isSome then m else m ++ [(a, v)]


end AList

/-! ### Candles (src/types/market-data.ts) -/

/-- One OHLC candle (`open` is a Lean keyword, hence the field name `open_`).
    `volume` is optional in the source type. -/
structure Candle where
  open_ : ℚ
  high : ℚ
  low : ℚ
  close : ℚ
  time : ℚ
  volume : Option ℚ
deriving DecidableEq, Repr

/-! ### Indicator calculators (src/features/indicators/calculators).

The calculators use JS floating point; the model computes over `ℚ`.  The one
primitive with no rational counterpart, `Math.sqrt` in the Bollinger stddev,
is passed in as an explicit function parameter `sqrtFn`; every theorem about
Bollinger bands below holds for an arbitrary `sqrtFn`. -/

/-- Simple moving average, from `calculateSMA` in calculators/index.ts:
    one output per loop index `i ∈ [period-1, values.length)`, each the mean of
    `values.slice(i - period + 1, i + 1)`. -/
def calculateSMA (values : List ℚ) (period : ℕ) : List ℚ :=
  ((List.range values.length).drop (period - 1)).map
    (fun i => (sliceJs values (i + 1 - period) (i + 1)).sum / (period : ℚ))

/-- Loop body of the shared `calculateEMA` in calculators/index.ts.  The source
    throws `"price or prevEma is undefined"` whenever the current price or the
    previous EMA value is falsy (i.e. `0`; there is no `NaN`/`undefined` on
    this path since every index it reads is in bounds). -/
def calculateEMAgo (k : ℚ) : ℚ → List ℚ → Except String (List ℚ)
  | _, [] => .ok []
  | prev, p :: rest =>
    if p = 0 ∨ prev = 0 then .error "price or prevEma is undefined"
    else
      match calculateEMAgo k (p * k + prev * (1 - k)) rest with
      | .error e => .error e
      | .ok l => .ok ((p * k + prev * (1 - k)) :: l)

/-- Shared exponential moving average (`calculateEMA` in calculators/index.ts).
    Seeds with `values[0]` (or `0` when the list is empty — the source then
    still returns the one-element array `[0]`). -/
def calculateEMA (values : List ℚ) (period : ℕ) : Except String (List ℚ) :=
  let k := 2 / ((period : ℚ) + 1)
  let firstValue := values.headD 0
  match calculateEMAgo k firstValue values.tail with
  | .error e => .error e
  | .ok l => .ok (firstValue :: l)

/-- Body of `computeRSI` (RSI.ts): windows of fewer than 2 prices yield the
    neutral `50`; otherwise gains/losses are the sums of the nonnegative /
    negated-negative adjacent differences, and
    `rsi = 100` when `avgLoss == 0`, else `100 - 100/(1 + avgGain/avgLoss)`.
    The gains/losses loop is split out as `rsiGains`/`rsiLosses`. -/
def rsiGains (prices : List ℚ) : ℚ :=
  ((prices.zip prices.tail).map
    (fun pr => if 0 ≤ pr.2 - pr.1 then pr.2 - pr.1 else 0)).sum

/-- Sum of the `losses -= difference` contributions of the same loop. -/
def rsiLosses (prices : List ℚ) : ℚ :=
  ((prices.zip prices.tail).map
    (fun pr => if 0 ≤ pr.2 - pr.1 then 0 else -(pr.2 - pr.1))).sum

/-- Tail of `computeRSI` after the gains/losses loop. -/
def computeRSI (prices : List ℚ) (period : ℕ) : ℚ :=
  if prices.length < 2 then 50
  else
    let avgGain := rsiGains prices / (period : ℚ)
    let avgLoss := rsiLosses prices / (period : ℚ)
    if avgLoss = 0 then 100
    else 100 - 100 / (1 + avgGain / avgLoss)

/-- Result shape of `calculateRSI` (RSI.ts). -/
structure RSIResult where
  rsi : List ℚ
  current : ℚ
  timeframe : ℚ
  timestamps : List ℚ
  historySize : ℕ
deriving DecidableEq, Repr

/-- Top-level `calculateRSI` (RSI.ts): one `computeRSI` per window
    `closes.slice(i - period, i + 1)` for `i ∈ [period, closes.length)`;
    `current` is the last value with JS `|| 50` fallback. -/
def calculateRSI (candles : List Candle) (period : ℕ) (timeframe : ℚ) : RSIResult :=
  let closes := candles.map (·.close)
  let timestamps := candles.map (·.time)
  let rsiValues := ((List.range closes.length).drop period).map
    (fun i => computeRSI (sliceJs closes (i - period) (i + 1)) period)
  { rsi := rsiValues
    current := lastOrJs rsiValues 50
    timeframe := timeframe
    timestamps := timestamps.drop period
    historySize := rsiValues.length }

namespace MACD

/-- Loop body of the local (non-throwing) `calculateEMA` in MACD.ts. -/
def emaGo (k : ℚ) : ℚ → List ℚ → List ℚ
  | _, [] => []
  | prev, p :: rest =>
    let v := p * k + prev * (1 - k)
    v :: emaGo k v rest

/-- Local `calculateEMA` in MACD.ts: `[]` for empty input, else seeded with the
    first (always defined in the model) value. -/
def calculateEMA (prices : List ℚ) (period : ℕ) : List ℚ :=
  match prices with
  | [] => []
  | p :: rest => p :: emaGo (2 / ((period : ℚ) + 1)) p rest

end MACD

/-- Current triple of `calculateMACD`. -/
structure MACDCurrent where
  macd : ℚ
  signal : ℚ
  histogram : ℚ
deriving DecidableEq, Repr

/-- Result shape of `calculateMACD` (MACD.ts). -/
structure MACDResult where
  macd : List ℚ
  signal : List ℚ
  histogram : List ℚ
  current : MACDCurrent
  timeframe : ℚ
  timestamps : List ℚ
  historySize : ℕ
deriving DecidableEq, Repr

/-- The `macdLine` loop of MACD.ts: pointwise difference of the two EMAs over
    their common length (`?? 0` on each read). -/
def macdLineOf (closes : List ℚ) (fastPeriod slowPeriod : ℕ) : List ℚ :=
  let emaFast := MACD.calculateEMA closes fastPeriod
  let emaSlow := MACD.calculateEMA closes slowPeriod
  let minLength := min emaFast.length emaSlow.length
  (List.range minLength).map (fun i => emaFast.getD i 0 - emaSlow.getD i 0)

/-- The `histogram` loop of MACD.ts: aligned to the tail of the MACD line. -/
def histogramOf (macdLine signalLine : List ℚ) : List ℚ :=
  (List.range signalLine.length).map
    (fun i => macdLine.getD (i + (macdLine.length - signalLine.length)) 0
      - signalLine.getD i 0)

/-- Top-level `calculateMACD` (MACD.ts). -/
def calculateMACD (candles : List Candle) (fastPeriod slowPeriod signalPeriod : ℕ)
    (timeframe : ℚ) : MACDResult :=
  let closes := candles.map (·.close)
  let timestamps := candles.map (·.time)
  if closes.length = 0 then
    { macd := [], signal := [], histogram := [], current := ⟨0, 0, 0⟩,
      timeframe := timeframe, timestamps := [], historySize := 0 }
  else
    let macdLine := macdLineOf closes fastPeriod slowPeriod
    let signalLine := MACD.calculateEMA macdLine signalPeriod
    let histogram := histogramOf macdLine signalLine
    { macd := macdLine
      signal := signalLine
      histogram := histogram
      current := ⟨macdLine.getLastD 0, signalLine.getLastD 0, histogram.getLastD 0⟩
      timeframe := timeframe
      timestamps := timestamps.drop (timestamps.length - macdLine.length)
      historySize := macdLine.length }

/-- Current triple of `calculateBollingerBands`. -/
structure BollingerCurrent where
  upper : ℚ
  middle : ℚ
  lower : ℚ
deriving DecidableEq, Repr

/-- Result shape of `calculateBollingerBands` (BollingerBands.ts). -/
structure BollingerBandsResult where
  upper : List ℚ
  middle : List ℚ
  lower : List ℚ
  current : BollingerCurrent
  timeframe : ℚ
  timestamps : List ℚ
  historySize : ℕ
deriving DecidableEq, Repr

/-- Population standard deviation helper of BollingerBands.ts
    (`Math.sqrt` abstracted as `sqrtFn`). -/
def calculateStdDev (sqrtFn : ℚ → ℚ) (values : List ℚ) (mean : ℚ) : ℚ :=
  sqrtFn ((values.map (fun v => (v - mean) ^ 2)).sum / (values.length : ℚ))

/-- Top-level `calculateBollingerBands` (BollingerBands.ts). -/
def calculateBollingerBands (sqrtFn : ℚ → ℚ) (candles : List Candle) (period : ℕ)
    (stdDev : ℚ) (timeframe : ℚ) : BollingerBandsResult :=
  let closes := candles.map (·.close)
  let timestamps := candles.map (·.time)
  let idxs := (List.range closes.length).drop (period - 1)
  let middle := idxs.map
    (fun i => (sliceJs closes (i + 1 - period) (i + 1)).sum / (period : ℚ))
  let upper := idxs.map (fun i =>
    let slice := sliceJs closes (i + 1 - period) (i + 1)
    let sma := slice.sum / (period : ℚ)
    sma + stdDev * calculateStdDev sqrtFn slice sma)
  let lower := idxs.map (fun i =>
    let slice := sliceJs closes (i + 1 - period) (i + 1)
    let sma := slice.sum / (period : ℚ)
    sma - stdDev * calculateStdDev sqrtFn slice sma)
  { upper := upper
    middle := middle
    lower := lower
    current := ⟨lastOrJs upper 0, lastOrJs middle 0, lastOrJs lower 0⟩
    timeframe := timeframe
    timestamps := timestamps.drop (period - 1)
    historySize := middle.length }

/-- Average true range (`calculateATR` in calculators/index.ts).  The source's
    "previous" high/low defensively read index `i`, not `i - 1`; that slip is
    preserved here.  Out-of-range reads (shorter `low`/`close` arrays) become
    `0` exactly as in the source's `typeof` guards. -/
def calculateATR (high low close : List ℚ) (period : ℕ) : List ℚ :=
  let tr := ((List.range high.length).drop 1).map (fun i =>
    let hi := high.getD i 0
    let li := low.getD i 0
    let hiPrev := high.getD i 0
    let ciPrev := close.getD (i - 1) 0
    let liPrev := low.getD i 0
    max (hi - li) (max |hiPrev - ciPrev| |liPrev - ciPrev|))
  calculateSMA tr period

/-- Stochastic oscillator (`calculateStochastic` in calculators/index.ts),
    returning `(k, d)`. -/
def calculateStochastic (high low close : List ℚ) (kPeriod dPeriod : ℕ) :
    List ℚ × List ℚ :=
  let k := ((List.range close.length).drop (kPeriod - 1)).map (fun i =>
    let highSlice := sliceJs high (i + 1 - kPeriod) (i + 1)
    let lowSlice := sliceJs low (i + 1 - kPeriod) (i + 1)
    let c := close.getD i 0
    let highestHigh := if highSlice.length > 0 then listMaxD highSlice 0 else 0
    let lowestLow := if lowSlice.length > 0 then listMinD lowSlice 0 else 0
    if highestHigh = lowestLow then 50
    else (c - lowestLow) / (highestHigh - lowestLow) * 100)
  (k, calculateSMA k dPeriod)

/-- Current triple of `calculateADX`. -/
structure ADXCurrent where
  adx : ℚ
  plusDI : ℚ
  minusDI : ℚ
deriving DecidableEq, Repr

/-- Result shape of `calculateADX` (ADX.ts). -/
structure ADXData where
  adx : List ℚ
  plusDI : List ℚ
  minusDI : List ℚ
  current : ADXCurrent
deriving DecidableEq, Repr

/-- Core of `calculateADX` (ADX.ts), before rounding: returns the published
    `adx` series (first entry unrounded, later entries rounded at push time,
    exactly as the source pushes them) and the *unrounded* `plusDI` /
    `minusDI` series. -/
def adxRaw (highs lows closes : List ℚ) (period : ℕ) :
    List ℚ × List ℚ × List ℚ :=
  let p : ℚ := (period : ℚ)
  let idxs := (List.range highs.length).drop 1
  let tr := idxs.map (fun i =>
    let high := highs.getD i 0
    let low := lows.getD i 0
    let prevClose := closes.getD (i - 1) 0
    max (high - low) (max |high - prevClose| |low - prevClose|))
  let plusDM := idxs.map (fun i =>
    let plusDM1 := highs.getD i 0 - highs.getD (i - 1) 0
    let minusDM1 := lows.getD (i - 1) 0 - lows.getD i 0
    if plusDM1 > minusDM1 ∧ plusDM1 > 0 then plusDM1 else 0)
  let minusDM := idxs.map (fun i =>
    let plusDM1 := highs.getD i 0 - highs.getD (i - 1) 0
    let minusDM1 := lows.getD (i - 1) 0 - lows.getD i 0
    if minusDM1 > plusDM1 ∧ minusDM1 > 0 then minusDM1 else 0)
  let trAvg0 := (tr.take period).sum / p
  let plusDMAvg0 := (plusDM.take period).sum / p
  let minusDMAvg0 := (minusDM.take period).sum / p
  let rest := ((List.range tr.length).drop period).map
    (fun i => (tr.getD i 0, plusDM.getD i 0, minusDM.getD i 0))
  let states := List.scanl
    (fun (s : ℚ × ℚ × ℚ) (x : ℚ × ℚ × ℚ) =>
      ((s.1 * (p - 1) + x.1) / p, (s.2.1 * (p - 1) + x.2.1) / p,
        (s.2.2 * (p - 1) + x.2.2) / p))
    (trAvg0, plusDMAvg0, minusDMAvg0) rest
  let plusDIValues := states.map (fun s => s.2.1 * 100 / s.1)
  let minusDIValues := states.map (fun s => s.2.2 * 100 / s.1)
  let dxValues := (plusDIValues.zip minusDIValues).map
    (fun di => |di.1 - di.2| / (di.1 + di.2) * 100)
  let adx0 := (dxValues.take period).sum / p
  let adxSeq := List.scanl (fun a d => (a * (p - 1) + d) / p) adx0
    (dxValues.drop period)
  (adx0 :: (adxSeq.drop 1).map round2, plusDIValues, minusDIValues)

/-- Top-level `calculateADX` (ADX.ts).  `plusDI`/`minusDI` are published
    rounded to 2 decimals while `current` is taken from the unrounded
    series. -/
def calculateADX (highs lows closes : List ℚ) (period : ℕ) : ADXData :=
  if highs.length < period + 1 then
    { adx := [], plusDI := [], minusDI := [], current := ⟨0, 0, 0⟩ }
  else
    let r := adxRaw highs lows closes period
    { adx := r.1
      plusDI := r.2.1.map round2
      minusDI := r.2.2.map round2
      current := ⟨lastOrJs r.1 0, lastOrJs r.2.1 0, lastOrJs r.2.2 0⟩ }

/-- Donchian channel helper of Ichimoku.ts: windows `[i, i + period)` anchored
    at the start of the series. -/
def donchian (highs lows : List ℚ) (period : ℕ) : List ℚ :=
  (List.range (highs.length + 1 - period)).map (fun i =>
    (listMaxD (sliceJs highs i (i + period)) 0
      + listMinD (sliceJs lows i (i + period)) 0) / 2)

/-- The Senkou Span A loop of Ichimoku.ts: element-wise average of Tenkan and
    Kijun over their common length. -/
def senkouAOf (tenkan kijun : List ℚ) : List ℚ :=
  (List.range (min tenkan.length kijun.length)).map
    (fun i => (tenkan.getD i 0 + kijun.getD i 0) / 2)

/-- Current tuple of `calculateIchimoku`. -/
structure IchimokuCurrent where
  tenkan : ℚ
  kijun : ℚ
  senkouA : ℚ
  senkouB : ℚ
  chikou : ℚ
deriving DecidableEq, Repr

/-- Result shape of `calculateIchimoku` (Ichimoku.ts). -/
structure IchimokuData where
  tenkan : List ℚ
  kijun : List ℚ
  senkouA : List ℚ
  senkouB : List ℚ
  chikou : List ℚ
  current : IchimokuCurrent
deriving DecidableEq, Repr

/-- Top-level `calculateIchimoku` (Ichimoku.ts): published arrays are rounded,
    `current` is taken from the unrounded arrays with JS `|| 0` fallback. -/
def calculateIchimoku (highs lows : List ℚ)
    (tenkanPeriod kijunPeriod senkouBPeriod : ℕ) : IchimokuData :=
  if highs.length < senkouBPeriod then
    { tenkan := [], kijun := [], senkouA := [], senkouB := [], chikou := [],
      current := ⟨0, 0, 0, 0, 0⟩ }
  else
    let tenkan := donchian highs lows tenkanPeriod
    let kijun := donchian highs lows kijunPeriod
    let senkouB := donchian highs lows senkouBPeriod
    let senkouA := senkouAOf tenkan kijun
    let chikou := lows.drop kijunPeriod
    { tenkan := tenkan.map round2
      kijun := kijun.map round2
      senkouA := senkouA.map round2
      senkouB := senkouB.map round2
      chikou := chikou.map round2
      current := ⟨lastOrJs tenkan 0, lastOrJs kijun 0, lastOrJs senkouA 0,
        lastOrJs senkouB 0, lastOrJs chikou 0⟩ }

/-! ### IndicatorManager (src/features/indicators/IndicatorManager.ts) -/

/-- The nine indicator families of `IndicatorType` (src/types/indicators.ts). -/
inductive IndicatorType
  | RSI | MACD | BOLLINGER | STOCHASTIC | ADX | ATR | SMA | EMA | ICHIMOKU
deriving DecidableEq, Repr

/-- Caller-supplied `params: Record<string, number>`: each known key either
    present or absent; `{...defaultParams, ...params}` resolves the absent ones
    to `DEFAULT_INDICATOR_PARAMS` (config/defaults.ts). -/
structure IndicatorParams where
  period : Option ℕ := none
  fastPeriod : Option ℕ := none
  slowPeriod : Option ℕ := none
  signalPeriod : Option ℕ := none
  std : Option ℚ := none
  kPeriod : Option ℕ := none
  dPeriod : Option ℕ := none
  tenkanPeriod : Option ℕ := none
  kijunPeriod : Option ℕ := none
  senkouBPeriod : Option ℕ := none
deriving Repr

/-- Options of a `calculate` / `calculateIndicator` call
    (src/types/indicators.ts `IndicatorOptions`). -/
structure IndicatorOptions where
  asset : String
  indicator : IndicatorType
  params : IndicatorParams
  timeframe : ℚ

/-- Result shape of `IndicatorManager.calculateSMA`. -/
structure SMAResult where
  sma : List ℚ
  current : ℚ
  timeframe : ℚ
  timestamps : List ℚ
  historySize : ℕ
deriving DecidableEq, Repr

/-- Result shape of `IndicatorManager.calculateEMA`. -/
structure EMAResult where
  ema : List ℚ
  current : ℚ
  timeframe : ℚ
  timestamps : List ℚ
  historySize : ℕ
deriving DecidableEq, Repr

/-- Result shape of `IndicatorManager.calculateATR`. -/
structure ATRResult where
  atr : List ℚ
  current : ℚ
  timeframe : ℚ
  timestamps : List ℚ
  historySize : ℕ
deriving DecidableEq, Repr

/-- Current pair of `calculateStochastic` as wrapped by the manager. -/
structure StochCurrent where
  k : ℚ
  d : ℚ
deriving DecidableEq, Repr

/-- Result shape of `IndicatorManager.calculateStochastic`. -/
structure StochasticResult where
  k : List ℚ
  d : List ℚ
  current : StochCurrent
  timeframe : ℚ
  timestamps : List ℚ
  historySize : ℕ
deriving DecidableEq, Repr

/-- Result shape of `IndicatorManager.calculateADX`. -/
structure ADXResult where
  adx : List ℚ
  plusDI : List ℚ
  minusDI : List ℚ
  current : ADXCurrent
  timeframe : ℚ
  timestamps : List ℚ
  historySize : ℕ
deriving DecidableEq, Repr

/-- Result shape of `IndicatorManager.calculateIchimoku`. -/
structure IchimokuResult where
  tenkan : List ℚ
  kijun : List ℚ
  senkouA : List ℚ
  senkouB : List ℚ
  chikou : List ℚ
  current : IchimokuCurrent
  timeframe : ℚ
  timestamps : List ℚ
  historySize : ℕ
deriving DecidableEq, Repr

/-- Tagged union of the manager's possible results
    (`IndicatorResult` in src/types/indicators.ts). -/
inductive IndicatorResult
  | rsi (r : RSIResult)
  | macd (r : MACDResult)
  | bollinger (r : BollingerBandsResult)
  | sma (r : SMAResult)
  | ema (r : EMAResult)
  | atr (r : ATRResult)
  | stochastic (r : StochasticResult)
  | adx (r : ADXResult)
  | ichimoku (r : IchimokuResult)

/-- Private `IndicatorManager.calculateSMA`. -/
def IndicatorManager.calculateSMA (candles : List Candle) (period : ℕ)
    (timeframe : ℚ) : SMAResult :=
  let closes := candles.map (·.close)
  let timestamps := candles.map (·.time)
  let sma := Quotex.calculateSMA closes period
  { sma := sma, current := lastOrJs sma 0, timeframe := timeframe,
    timestamps := timestamps.drop (period - 1), historySize := sma.length }

/-- Private `IndicatorManager.calculateEMA`; propagates the shared
    calculator's exception. -/
def IndicatorManager.calculateEMA (candles : List Candle) (period : ℕ)
    (timeframe : ℚ) : Except String EMAResult :=
  let closes := candles.map (·.close)
  let timestamps := candles.map (·.time)
  match Quotex.calculateEMA closes period with
  | .error e => .error e
  | .ok ema =>
    .ok ⟨ema, lastOrJs ema 0, timeframe, timestamps, ema.length⟩

/-- Private `IndicatorManager.calculateATR`. -/
def IndicatorManager.calculateATR (candles : List Candle) (period : ℕ)
    (timeframe : ℚ) : ATRResult :=
  let atr := Quotex.calculateATR (candles.map (·.high)) (candles.map (·.low))
    (candles.map (·.close)) period
  { atr := atr, current := lastOrJs atr 0, timeframe := timeframe,
    timestamps := (candles.map (·.time)).drop period, historySize := atr.length }

/-- Private `IndicatorManager.calculateStochastic`. -/
def IndicatorManager.calculateStochastic (candles : List Candle)
    (kPeriod dPeriod : ℕ) (timeframe : ℚ) : StochasticResult :=
  let kd := Quotex.calculateStochastic (candles.map (·.high))
    (candles.map (·.low)) (candles.map (·.close)) kPeriod dPeriod
  { k := kd.1, d := kd.2,
    current := ⟨lastOrJs kd.1 50, lastOrJs kd.2 50⟩, timeframe := timeframe,
    timestamps := (candles.map (·.time)).drop (kPeriod - 1),
    historySize := kd.1.length }

/-- Private `IndicatorManager.calculateADX`. -/
def IndicatorManager.calculateADX (candles : List Candle) (period : ℕ)
    (timeframe : ℚ) : ADXResult :=
  let r := Quotex.calculateADX (candles.map (·.high)) (candles.map (·.low))
    (candles.map (·.close)) period
  { adx := r.adx, plusDI := r.plusDI, minusDI := r.minusDI,
    current := r.current, timeframe := timeframe,
    timestamps := (candles.map (·.time)).drop period,
    historySize := r.adx.length }

/-- Private `IndicatorManager.calculateIchimoku`. -/
def IndicatorManager.calculateIchimoku (candles : List Candle)
    (tenkanPeriod kijunPeriod senkouBPeriod : ℕ) (timeframe : ℚ) :
    IchimokuResult :=
  let r := Quotex.calculateIchimoku (candles.map (·.high))
    (candles.map (·.low)) tenkanPeriod kijunPeriod senkouBPeriod
  { tenkan := r.tenkan, kijun := r.kijun, senkouA := r.senkouA,
    senkouB := r.senkouB, chikou := r.chikou, current := r.current,
    timeframe := timeframe,
    timestamps := (candles.map (·.time)).take r.tenkan.length,
    historySize := r.tenkan.length }

/-- The `IndicatorManager.calculate` dispatch: merges
    `DEFAULT_INDICATOR_PARAMS` with the caller's params and calls the family's
    calculator.  `default: throw` of the switch is unreachable since
    `IndicatorType` is exactly the nine handled strings. -/
def IndicatorManager.calculate (sqrtFn : ℚ → ℚ) (candles : List Candle)
    (options : IndicatorOptions) : Except String IndicatorResult :=
  let ps := options.params
  let tf := options.timeframe
  match options.indicator with
  | .RSI => .ok (.rsi (calculateRSI candles (ps.period.getD 14) tf))
  | .MACD => .ok (.macd (calculateMACD candles (ps.fastPeriod.getD 12)
      (ps.slowPeriod.getD 26) (ps.signalPeriod.getD 9) tf))
  | .BOLLINGER => .ok (.bollinger (calculateBollingerBands sqrtFn candles
      (ps.period.getD 20) (ps.std.getD 2) tf))
  | .SMA => .ok (.sma (IndicatorManager.calculateSMA candles
      (ps.period.getD 20) tf))
  | .EMA =>
    match IndicatorManager.calculateEMA candles (ps.period.getD 20) tf with
    | .error e => .error e
    | .ok r => .ok (.ema r)
  | .ATR => .ok (.atr (IndicatorManager.calculateATR candles
      (ps.period.getD 14) tf))
  | .STOCHASTIC => .ok (.stochastic (IndicatorManager.calculateStochastic
      candles (ps.kPeriod.getD 14) (ps.dPeriod.getD 3) tf))
  | .ADX => .ok (.adx (IndicatorManager.calculateADX candles
      (ps.period.getD 14) tf))
  | .ICHIMOKU => .ok (.ichimoku (IndicatorManager.calculateIchimoku candles
      (ps.tenkanPeriod.getD 9) (ps.kijunPeriod.getD 26)
      (ps.senkouBPeriod.getD 52) tf))

/-! ### QuotexClient.calculateIndicator (src/client/QuotexClient.ts) -/

/-- Options of a `getCandles` call (src/types/market-data.ts). -/
structure CandleOptions where
  asset : String
  endTime : Option ℚ
  offset : ℚ
  period : ℚ
deriving DecidableEq, Repr

/-- The `getCandles` request built by `calculateIndicator`:
    `offset = timeframe * 100` ("Get 100 periods"), `period = timeframe`. -/
def calculateIndicatorRequest (options : IndicatorOptions) : CandleOptions :=
  { asset := options.asset, endTime := none,
    offset := options.timeframe * 100, period := options.timeframe }

/-- Remainder of `calculateIndicator` once the candle fetch resolved to
    `fetched`: error on an empty fetch, else delegate to the manager. -/
def calculateIndicator (sqrtFn : ℚ → ℚ) (fetched : List Candle)
    (options : IndicatorOptions) : Except String IndicatorResult :=
  if fetched.length = 0 then
    .error "No candles available for indicator calculation"
  else IndicatorManager.calculate sqrtFn fetched options

/-! ### MarketDataManager (src/features/market-data/MarketDataManager.ts) -/

/-- A realtime price entry (src/types/market-data.ts). -/
structure RealtimePrice where
  asset : String
  price : ℚ
  time : ℚ
deriving DecidableEq, Repr

/-- Subscription keys.  The source builds string keys
    (`candles:ASSET:PERIOD`, `prices:ASSET`, `sentiment:ASSET`); they are
    modelled structurally, with `key.startsWith("candles:" + asset + ":")`
    becoming a match on the `candles` constructor with the same asset. -/
inductive SubKey
  | candles (asset : String) (period : ℚ)
  | prices (asset : String)
  | sentiment (asset : String)
deriving DecidableEq, Repr

/-- The manager's mutable state; callbacks are identified by numbers (a JS
    `Set` of function references becomes a duplicate-free list of ids).
    `sentimentData`/`signalData` are untouched by every operation modelled
    here and are omitted. -/
structure MDState where
  candleStreams : List (String × List Candle)
  priceStreams : List (String × List RealtimePrice)
  subscriptions : List (SubKey × List ℕ)
deriving DecidableEq, Repr

/-- Outbound socket commands sent by the manager (the `42["…",…]` strings,
    modelled structurally). -/
inductive OutMsg
  | instrumentsUpdate (asset : String) (period : ℚ)
  | depthFollow (asset : String)
  | depthUnfollow (asset : String)
  | historyLoad (asset : String) (index time offset period : ℚ)
deriving DecidableEq, Repr

/-- One entry of a `data.candles` history array: a numeric tuple, an object
    (absent fields are `none`), or anything else. -/
inductive PEntry
  | arr (vals : List ℚ)
  | obj (open_ close high low time timestamp at_ volume : Option ℚ)
  | other
deriving DecidableEq, Repr

/-- An object payload delivered on the `candles` / `instruments/update`
    channels; each field is `none` when absent (`undefined`). -/
structure MsgData where
  asset : Option String := none
  period : Option ℚ := none
  candles : Option (List PEntry) := none
  history : Option (List (List ℚ)) := none
  open_ : Option ℚ := none
  high : Option ℚ := none
  low : Option ℚ := none
  close : Option ℚ := none
  time : Option ℚ := none
  timestamp : Option ℚ := none
  volume : Option ℚ := none
deriving DecidableEq, Repr

/-- Shape-A entry parser (the `for (const entry of candlesArray)` body of
    `handleHistoryResponse`): tuples `[time, open, close, high, low, vol?]`
    with `time` floored, or objects with `open`/`close` present and time
    `entry.time || entry.timestamp || entry.at`; the final
    `candle && candle.time && !isNaN(open) && !isNaN(close)` guard drops
    entries whose time is `undefined` or `0` (falsy).  Numeric object fields
    that are absent stay absent in JS; they are modelled as `0`, which no
    claim below observes. -/
def parseEntry : PEntry → Option Candle
  | .arr vals =>
    if vals.length ≥ 5 then
      let t : ℚ := ((⌊vals.getD 0 0⌋ : ℤ) : ℚ)
      if t ≠ 0 then
        some ⟨vals.getD 1 0, vals.getD 3 0, vals.getD 4 0, vals.getD 2 0, t,
          if vals.length > 5 then some (vals.getD 5 0) else none⟩
      else none
    else none
  | .obj o c h l t ts at_ v =>
    if o.isSome ∧ c.isSome then
      match jsOrOpt (jsOrOpt t ts) at_ with
      | some tv => if tv ≠ 0 then some ⟨o.getD 0, h.getD 0, l.getD 0, c.getD 0, tv, v⟩
        else none
      | none => none
    else none
  | .other => none

/-- One tick bucket of the shape-B aggregation. -/
structure Bucket where
  time : ℚ
  open_ : ℚ
  high : ℚ
  low : ℚ
  close : ℚ
  count : ℕ
deriving DecidableEq, Repr

/-- Bucket assignment of the shape-B aggregation:
    `bucketTime = Math.floor(timestamp / period) * period`. -/
def tickBucket (period t : ℚ) : ℚ := ((⌊t / period⌋ : ℤ) : ℚ) * period

/-- Per-tick step of the shape-B bucket fold: ticks shorter than 2 entries are
    skipped; a fresh bucket opens at the tick's price, an existing one updates
    `high`/`low`/`close` and its count. -/
def tickStep (period : ℚ) (acc : List (ℚ × Bucket)) (tick : List ℚ) :
    List (ℚ × Bucket) :=
  match tick with
  | t :: price :: _ =>
    let bucketTime : ℚ := tickBucket period t
    match AList.get acc bucketTime with
    | none => acc ++ [(bucketTime, ⟨bucketTime, price, price, price, price, 1⟩)]
    | some b =>
      AList.set acc bucketTime
        ⟨b.time, b.open_, max b.high price, min b.low price, price, b.count + 1⟩
  | _ => acc

/-- The `buckets` map after folding a whole `data.history` array
    (JS `Map` iteration order = insertion order). -/
def foldTicks (period : ℚ) (ticks : List (List ℚ)) : List (ℚ × Bucket) :=
  ticks.foldl (tickStep period) []

/-- A finished bucket becomes a candle whose volume is the tick count. -/
def bucketCandle (b : Bucket) : Candle :=
  ⟨b.open_, b.high, b.low, b.close, b.time, some (b.count : ℚ)⟩

/-- Specification-side view of a `history` array: the `(timestamp, price)`
    pairs of the well-formed (length ≥ 2) ticks, in array order. -/
def validTicks (ticks : List (List ℚ)) : List (ℚ × ℚ) :=
  ticks.filterMap (fun t =>
    match t with
    | a :: p :: _ => some (a, p)
    | _ => none)

/-- Specification-side view: the ticks of `ticks` falling in bucket `b`, in
    array order. -/
def bucketGroup (period b : ℚ) (ticks : List (List ℚ)) : List (ℚ × ℚ) :=
  (validTicks ticks).filter (fun tp => tickBucket period tp.1 = b)

/-- Specification-side candle of one bucket: `open` is the price of the first
    tick of the group in array order, `close` the last, `high`/`low` the
    running max/min, and the count is the group size. -/
def bucketSpec (b : ℚ) (g : List (ℚ × ℚ)) : Option Bucket :=
  match g with
  | [] => none
  | (_, p) :: rest =>
    some ⟨b, p, rest.foldl (fun hi tp => max hi tp.2) p,
      rest.foldl (fun lo tp => min lo tp.2) p, (g.getLastD (0, 0)).2, g.length⟩

/-- Comparator relation of `(a, b) => a.time - b.time` on candles. -/
def candleLe (a b : Candle) : Prop := a.time ≤ b.time

instance : DecidableRel candleLe := fun a b =>
  inferInstanceAs (Decidable (a.time ≤ b.time))

instance : IsTotal Candle candleLe := ⟨fun a b => le_total a.time b.time⟩

instance : IsTrans Candle candleLe := ⟨fun _ _ _ h1 h2 => le_trans h1 h2⟩

/-- Comparator relation of `(a, b) => a.time - b.time` on buckets. -/
def bucketLe (a b : Bucket) : Prop := a.time ≤ b.time

instance : DecidableRel bucketLe := fun a b =>
  inferInstanceAs (Decidable (a.time ≤ b.time))

/-- Shape-B aggregation result: bucket values in insertion order, stably
    sorted ascending by time, as candles. -/
def aggregatedB (period : ℚ) (ticks : List (List ℚ)) : List Candle :=
  (((foldTicks period ticks).map Prod.snd).insertionSort bucketLe).map
    bucketCandle

/-- Tail of `handleHistoryResponse`: truncate to the LAST 1000 elements in
    append order (`splice(0, excess)`), THEN stable-sort ascending by time.
    The source runs these two steps in exactly this order. -/
def finalize (candles : List Candle) : List Candle :=
  let truncated :=
    if candles.length > 1000 then candles.drop (candles.length - 1000)
    else candles
  truncated.insertionSort candleLe

/-- Guard of the shape-A branch:
    `Array.isArray(data.candles) && data.candles.length > 0`. -/
def shapeA (d : MsgData) : Bool :=
  match d.candles with
  | some es => es.length > 0
  | none => false

/-- Guard `period > 0` (with `period` possibly `undefined`, which compares
    false). -/
def periodPos (d : MsgData) : Bool :=
  match d.period with
  | some p => decide (p > 0)
  | none => false

/-- Guard of the shape-B branch. -/
def shapeB (d : MsgData) : Bool :=
  (match d.history with
   | some ts => ts.length > 0
   | none => false) && periodPos d

/-- The `handleHistoryResponse` state transformation on `candleStreams`
    (notifying subscribers does not change state).  Note the source creates an
    empty buffer entry for the asset even when no usable data follows, and an
    empty-string asset is falsy and bails out first. -/
def handleHistoryResponse (cs : List (String × List Candle)) (d : MsgData) :
    List (String × List Candle) :=
  match d.asset with
  | none => cs
  | some asset =>
    if asset = "" then cs
    else
      let cs1 := AList.ensure cs asset []
      let buf := (AList.get cs asset).getD []
      if shapeA d then
        AList.set cs1 asset (finalize (buf ++ (d.candles.getD []).filterMap parseEntry))
      else if shapeB d then
        AList.set cs1 asset (finalize (buf ++ aggregatedB (d.period.getD 0) (d.history.getD [])))
      else cs1

/-- The candles a processed history payload appends before truncation and
    sorting (shape A parse, or shape B aggregation). -/
def ingested (d : MsgData) : List Candle :=
  if shapeA d then (d.candles.getD []).filterMap parseEntry
  else if shapeB d then aggregatedB (d.period.getD 0) (d.history.getD [])
  else []

/-- The `handleCandleUpdate` state transformation on `candleStreams`: history
    payloads are delegated; otherwise a single candle is pushed (no field
    validation beyond a truthy `asset`) and the buffer is capped at 1000 by
    shifting once. -/
def handleCandleUpdate (cs : List (String × List Candle)) (d : MsgData) :
    List (String × List Candle) :=
  if d.candles.isSome ∨ d.history.isSome then handleHistoryResponse cs d
  else
    match d.asset with
    | none => cs
    | some asset =>
      if asset = "" then cs
      else
        let candle : Candle := ⟨d.open_.getD 0, d.high.getD 0, d.low.getD 0,
          d.close.getD 0, (jsOrOpt d.time d.timestamp).getD 0, d.volume⟩
        let cs1 := AList.ensure cs asset []
        let buf := (AList.get cs asset).getD [] ++ [candle]
        let buf2 := if buf.length > 1000 then buf.drop 1 else buf
        AList.set cs1 asset buf2

/-- Inbound JSON values as far as the tick handler inspects them. -/
inductive JVal
  | num (q : ℚ)
  | str (s : String)
  | arr (l : List JVal)
deriving Repr

/-- Check `typeof v === 'number' && v === Math.floor(v)`. -/
def jvalIsIntNum : JVal → Bool
  | .num n => decide ((⌊n⌋ : ℚ) = n)
  | _ => false

/-- Callback fan-out of `handleTickUpdate`: every callback registered under a
    `candles:ASSET:*` key, each notified at most once (`notified` set),
    in map/set insertion order. -/
def notifyTick (subs : List (SubKey × List ℕ)) (asset : String) : List ℕ :=
  subs.foldl
    (fun acc kv =>
      match kv.1 with
      | .candles a _ =>
        if a = asset then
          kv.2.foldl (fun ac cb => if cb ∈ ac then ac else ac ++ [cb]) acc
        else acc
      | _ => acc)
    []

/-- The `handleTickUpdate` handler: guards non-array data, too-short arrays,
    non-string assets, the 2-element `[asset, int]` heartbeat, and non-numeric
    timestamp/price; then builds the synthetic one-price candle, notifies all
    candle subscriptions of the asset, and appends to the price stream (capped
    at 100).  It never touches `candleStreams`.  Returns the new state and the
    `(callback, candle)` notifications. -/
def handleTickUpdate (st : MDState) (data : JVal) :
    MDState × List (ℕ × Candle) :=
  match data with
  | .arr l =>
    if l.length < 2 then (st, [])
    else
      match l.getD 0 (.num 0) with
      | .str asset =>
        if l.length = 2 && jvalIsIntNum (l.getD 1 (.num 0)) then (st, [])
        else if l.length < 3 then (st, [])
        else
          match l.getD 1 (.num 0), l.getD 2 (.num 0) with
          | .num timestamp, .num price =>
            let syntheticCandle : Candle :=
              ⟨price, price, price, price, timestamp, some 1⟩
            let emitted := (notifyTick st.subscriptions asset).map
              (fun cb => (cb, syntheticCandle))
            let prices := (AList.get st.priceStreams asset).getD [] ++
              [⟨asset, price, timestamp⟩]
            let prices2 := if prices.length > 100 then prices.drop 1 else prices
            ({ st with priceStreams := AList.set st.priceStreams asset prices2 },
              emitted)
          | _, _ => (st, [])
      | _ => (st, [])
  | _ => (st, [])

/-- The commands and registry update of `subscribeToCandleStream`. -/
def subscribeToCandleStream (st : MDState) (msgs : List OutMsg) (asset : String)
    (period : ℚ) (cb : ℕ) : MDState × List OutMsg :=
  let msgs1 := msgs ++ [.instrumentsUpdate asset period, .depthFollow asset]
  let key := SubKey.candles asset period
  let cur := (AList.get st.subscriptions key).getD []
  let subs := AList.set st.subscriptions key (if cb ∈ cur then cur else cur ++ [cb])
  ({ st with subscriptions := subs }, msgs1)

/-- The cancel closure returned by `subscribeToCandleStream`:
    `subscriptions.get(key)?.delete(callback)` followed by
    `if (subscriptions.get(key)?.size === 0) unsubscribeFromCandleStream(asset)`
    (which sends `depth/unfollow`).  When the key is absent both optional
    chains short-circuit (`undefined === 0` is false). -/
def cancelCandleStream (st : MDState) (msgs : List OutMsg) (asset : String)
    (period : ℚ) (cb : ℕ) : MDState × List OutMsg :=
  let key := SubKey.candles asset period
  match AList.get st.subscriptions key with
  | none => (st, msgs)
  | some s =>
    let s1 := s.filter (fun x => x != cb)
    let st1 := { st with subscriptions := AList.set st.subscriptions key s1 }
    if s1 = [] then (st1, msgs ++ [.depthUnfollow asset]) else (st1, msgs)

/-- Ordered observable actions of `getCandles` (state mutation and sends). -/
inductive Act
  | deleteBuffer (asset : String)
  | send (m : OutMsg)
deriving DecidableEq, Repr

/-- State effect of `getCandles`: the asset's buffer is deleted up front. -/
def getCandlesState (st : MDState) (asset : String) : MDState :=
  { st with candleStreams := AList.erase st.candleStreams asset }

/-- Action trace of `getCandles(options)` (`now` stands for the two
    `getTimestamp()` reads): delete the buffer, then send
    `instruments/update`, `depth/follow` and `history/load`. -/
def getCandlesTrace (options : CandleOptions) (now : ℚ) : List Act :=
  [.deleteBuffer options.asset,
   .send (.instrumentsUpdate options.asset options.period),
   .send (.depthFollow options.asset),
   .send (.historyLoad options.asset now (options.endTime.getD now)
     options.offset options.period)]

/-- Inbound events that can reach the manager between a `getCandles` call and
    its `waitForCandles` read. -/
inductive InEvent
  | candles (d : MsgData)
  | instruments (d : MsgData)
  | tick (v : JVal)

/-- One inbound event applied to the state (the `candles` and
    `instruments/update` channels share `handleCandleUpdate`). -/
def stepEvent (st : MDState) (ev : InEvent) : MDState :=
  match ev with
  | .candles d => { st with candleStreams := handleCandleUpdate st.candleStreams d }
  | .instruments d => { st with candleStreams := handleCandleUpdate st.candleStreams d }
  | .tick v => (handleTickUpdate st v).1

/-- Replay of a list of inbound events. -/
def replay (st : MDState) (evs : List InEvent) : MDState :=
  evs.foldl stepEvent st

/-! ### ChannelDispatcher type-4 object classification
    (handleRawMessage, src/core/websocket — the object branch of the
    charCode-4 path). -/

/-- Shape flags of a parsed type-4 object payload: `candles`, `history`,
    `open`, `close`, `asset`, `liveBalance` and `demoBalance` are presence
    checks (`!== undefined`); `id`, `openTime`, `closeTime`, `error` and
    `pending` are JS truthiness checks. -/
structure Type4Object where
  candles : Bool
  history : Bool
  open_ : Bool
  close : Bool
  asset : Bool
  idTruthy : Bool
  openTime : Bool
  closeTime : Bool
  errorTruthy : Bool
  pendingTruthy : Bool
  liveBalance : Bool
  demoBalance : Bool
deriving DecidableEq, Repr

/-- The channel(s) a type-4 object payload is delivered to — the exclusive
    if/else-if chain of `handleRawMessage`; `handleMessage(channel, data)`
    invokes exactly that one channel's handlers. -/
def classifyType4Object (p : Type4Object) : List String :=
  if p.candles || p.history then ["candles"]
  else if p.open_ && p.close && p.asset then ["candles"]
  else if p.idTruthy && (p.openTime || p.closeTime) then ["message"]
  else if p.errorTruthy then ["message"]
  else if p.pendingTruthy then ["message"]
  else if p.liveBalance || p.demoBalance then ["message"]
  else ["message"]

/-- Specification-side predicate: the payload shapes the spec's "candles rule"
    covers (a `candles` or `history` field, or `open`/`close`/`asset`
    together). -/
def candlesRule (p : Type4Object) : Bool :=
  p.candles || p.history || (p.open_ && p.close && p.asset)

/-! ### Helper lemmas -/

section Lemmas

variable {α β : Type} [DecidableEq α]

theorem AList.get_set_self (m : List (α × β)) (a : α) (v : β) :
    get (set m a v) a = some v := by
  induction m with
  | nil => simp [get, set]
  | cons p rest ih =>
    by_cases h : p.1 = a
    · simp [set, get, h]
    · simp [set, get, h, ih]

theorem AList.get_set_ne (m : List (α × β)) (a b : α) (v : β) (h : a ≠ b) :
    get (set m a v) b = get m b := by
  induction m with
  | nil => simp [get, set, h]
  | cons p rest ih =>
    by_cases h1 : p.1 = a
    · simp [set, get, h1, h]
    · simp only [set, get, h1, if_false]
      by_cases h2 : p.1 = b <;> simp [get, h2, ih]

theorem AList.get_erase_ne (m : List (α × β)) (a b : α) (h : a ≠ b) :
    get (erase m a) b = get m b := by
  induction m with
  | nil => rfl
  | cons p rest ih =>
    by_cases h1 : p.1 = a
    · have hb : p.1 ≠ b := fun hc => h (h1 ▸ hc)
      simp [erase, get, h1, hb, h, ih]
    · by_cases h2 : p.1 = b <;> simp [erase, get, h1, h2, h, Ne.symm h, ih]

theorem AList.get_erase_self (m : List (α × β)) (a : α) : get (erase m a) a = none := by
  induction m with
  | nil => rfl
  | cons p rest ih =>
    by_cases h1 : p.1 = a <;> simp [erase, get, h1, ih]

theorem AList.get_append_ne {m : List (α × β)} {a b : α} (v : β) (h : a ≠ b) :
    get (m ++ [(a, v)]) b = get m b := by
  induction m with
  | nil => simp [get, h]
  | cons p rest ih =>
    by_cases h2 : p.1 = b <;> simp [get, h2, ih]

theorem rsiGains_nonneg (prices : List ℚ) : 0 ≤ rsiGains prices := by
  apply List.sum_nonneg
  intro x hx
  simp only [List.mem_map] at hx
  obtain ⟨pr, _, rfl⟩ := hx
  by_cases h : 0 ≤ pr.2 - pr.1 <;> simp [h]

theorem rsiLosses_nonneg (prices : List ℚ) : 0 ≤ rsiLosses prices := by
  apply List.sum_nonneg
  intro x hx
  simp only [List.mem_map] at hx
  obtain ⟨pr, _, rfl⟩ := hx
  by_cases h : 0 ≤ pr.2 - pr.1 <;> simp [h] <;> linarith

theorem computeRSI_mem (prices : List ℚ) (period : ℕ) :
    0 ≤ computeRSI prices period ∧ computeRSI prices period ≤ 100 := by
  simp only [computeRSI]
  split_ifs with h1 h2
  · norm_num
  · norm_num
  · have hg := rsiGains_nonneg prices
    have hl := rsiLosses_nonneg prices
    have hp : (0 : ℚ) ≤ (period : ℚ) := Nat.cast_nonneg _
    have hal : 0 ≤ rsiLosses prices / (period : ℚ) := div_nonneg hl hp
    have halp : 0 < rsiLosses prices / (period : ℚ) := lt_of_le_of_ne hal (Ne.symm h2)
    have hag : 0 ≤ rsiGains prices / (period : ℚ) := div_nonneg hg hp
    have hrs : 0 ≤ rsiGains prices / (period : ℚ) / (rsiLosses prices / (period : ℚ)) :=
      div_nonneg hag hal
    have h1b : (0 : ℚ) < 1 + rsiGains prices / (period : ℚ) / (rsiLosses prices / (period : ℚ)) := by
      linarith
    constructor
    · have hd : 100 / (1 + rsiGains prices / (period : ℚ) / (rsiLosses prices / (period : ℚ))) ≤ 100 := by
        rw [div_le_iff₀ h1b]
        nlinarith
      linarith
    · have hd : 0 ≤ 100 / (1 + rsiGains prices / (period : ℚ) / (rsiLosses prices / (period : ℚ))) :=
        le_of_lt (div_pos (by norm_num) h1b)
      linarith

theorem computeRSI_flat (prices : List ℚ) (period : ℕ)
    (hlen : prices.length = period + 1) (hp : 1 ≤ period)
    (hloss : rsiLosses prices = 0) : computeRSI prices period = 100 := by
  have h2 : ¬ prices.length < 2 := by omega
  simp [computeRSI, h2, hloss]

theorem rsiLosses_eq_max_sum (prices : List ℚ) :
    rsiLosses prices =
      ((prices.zip prices.tail).map (fun pr => max (pr.1 - pr.2) 0)).sum := by
  unfold rsiLosses
  congr 1
  apply List.map_congr_left
  intro pr _
  rcases le_or_lt 0 (pr.2 - pr.1) with h | h
  · rw [if_pos h, max_eq_right (by linarith)]
  · rw [if_neg (not_le.2 h), max_eq_left (by linarith)]
    ring

theorem MACD.emaGo_length (k : ℚ) (prev : ℚ) (l : List ℚ) :
    (MACD.emaGo k prev l).length = l.length := by
  induction l generalizing prev with
  | nil => rfl
  | cons p rest ih => simp [MACD.emaGo, ih]

theorem MACD.calculateEMA_length (prices : List ℚ) (period : ℕ) :
    (MACD.calculateEMA prices period).length = prices.length := by
  cases prices with
  | nil => rfl
  | cons p rest => simp [MACD.calculateEMA, MACD.emaGo_length]

theorem getD_map_range (f : ℕ → ℚ) (n i : ℕ) (d : ℚ) :
    ((List.range n).map f).getD i d = if i < n then f i else d := by
  rcases lt_or_le i n with h | h
  · rw [List.getD_eq_getElem?_getD, List.getElem?_map, List.getElem?_range h]
    simp [h]
  · rw [List.getD_eq_getElem?_getD, List.getElem?_eq_none (by simpa using h)]
    simp [not_lt.2 h]

theorem getD_drop (l : List ℚ) (k i : ℕ) (d : ℚ) :
    (l.drop k).getD i d = l.getD (k + i) d := by
  rw [List.getD_eq_getElem?_getD, List.getD_eq_getElem?_getD, List.getElem?_drop]

theorem getD_of_length_le (l : List ℚ) (i : ℕ) (d : ℚ) (h : l.length ≤ i) :
    l.getD i d = d := by
  rw [List.getD_eq_getElem?_getD, List.getElem?_eq_none h]
  rfl

theorem calculateEMAgo_error_msg (k : ℚ) (prev : ℚ) (l : List ℚ) (e : String)
    (h : calculateEMAgo k prev l = .error e) :
    e = "price or prevEma is undefined" := by
  induction l generalizing prev with
  | nil => exact absurd h (by simp [calculateEMAgo])
  | cons p rest ih =>
    simp only [calculateEMAgo] at h
    split_ifs at h with h1
    · injection h with h2
      exact h2.symm
    · revert h
      cases hrec : calculateEMAgo k (p * k + prev * (1 - k)) rest with
      | error e2 =>
        intro h
        injection h with h2
        exact ih _ (h2 ▸ hrec)
      | ok l2 =>
        intro h
        exact absurd h (by simp)

theorem calculateEMA_error_msg (values : List ℚ) (period : ℕ) (e : String)
    (h : calculateEMA values period = .error e) :
    e = "price or prevEma is undefined" := by
  simp only [calculateEMA] at h
  revert h
  cases hgo : calculateEMAgo (2 / ((period : ℚ) + 1)) (values.headD 0) values.tail with
  | error e2 =>
    intro h
    injection h with h2
    exact h2 ▸ calculateEMAgo_error_msg _ _ _ _ hgo
  | ok l =>
    intro h
    exact absurd h (by simp)

theorem IndicatorManager.calcEMA_error_msg (candles : List Candle)
    (period : ℕ) (tf : ℚ) (e : String)
    (h : IndicatorManager.calculateEMA candles period tf = .error e) :
    e = "price or prevEma is undefined" := by
  simp only [IndicatorManager.calculateEMA] at h
  revert h
  cases hema : Quotex.calculateEMA (candles.map (fun c => c.close)) period with
  | error e2 =>
    intro h
    injection h with h2
    exact h2 ▸ Quotex.calculateEMA_error_msg _ _ _ hema
  | ok l =>
    intro h
    exact absurd h (by simp)

theorem IndicatorManager.calculate_ne_noCandles (sqrtFn : ℚ → ℚ)
    (candles : List Candle) (options : IndicatorOptions) :
    IndicatorManager.calculate sqrtFn candles options ≠
      .error "No candles available for indicator calculation" := by
  obtain ⟨asset, ind, ps, tf⟩ := options
  cases ind <;> simp only [IndicatorManager.calculate]
  case EMA =>
    cases hm : IndicatorManager.calculateEMA candles (ps.period.getD 20) tf with
    | error e =>
      have he := IndicatorManager.calcEMA_error_msg _ _ _ _ hm
      subst he
      intro h
      injection h with h2
      exact absurd h2 (by decide)
    | ok r => exact fun h => nomatch h
  all_goals exact fun h => nomatch h

theorem AList.set_set (m : List (α × β)) (a : α) (v w : β) :
    set (set m a v) a w = set m a w := by
  induction m with
  | nil => simp [set]
  | cons p rest ih =>
    by_cases h : p.1 = a <;> simp [set, h, ih]

theorem finalize_length (l : List Candle) :
    (finalize l).length = min l.length 1000 := by
  unfold finalize
  rw [(List.perm_insertionSort candleLe _).length_eq]
  split_ifs with h <;> simp <;> omega

theorem finalize_sorted (l : List Candle) :
    (finalize l).Sorted candleLe := by
  unfold finalize
  exact List.sorted_insertionSort candleLe _

theorem handleHistoryResponse_processed (cs : List (String × List Candle))
    (d : MsgData) (asset : String) (ha : d.asset = some asset)
    (hne : asset ≠ "") (h : shapeA d = true ∨ shapeB d = true) :
    AList.get (handleHistoryResponse cs d) asset =
      some (finalize (((AList.get cs asset).getD []) ++ ingested d)) := by
  unfold handleHistoryResponse
  rw [ha]
  simp only [hne, if_neg (by exact hne)]
  by_cases hA : shapeA d = true
  · simp only [ingested, hA, if_pos rfl, if_true]
    exact AList.get_set_self _ _ _
  · have hB : shapeB d = true := h.resolve_left hA
    simp only [ingested, hA, hB, if_true, if_false, Bool.false_eq_true]
    exact AList.get_set_self _ _ _

theorem AList.get_append_self (m : List (α × β)) (a : α) (v : β)
    (h : get m a = none) : get (m ++ [(a, v)]) a = some v := by
  induction m with
  | nil => simp [get]
  | cons p rest ih =>
    by_cases h2 : p.1 = a
    · simp [get, h2] at h
    · simp only [get, h2, if_false, List.cons_append] at h ⊢
      simp [get, h2, ih h]

theorem bucketSpec_eq_none (b : ℚ) (g : List (ℚ × ℚ)) :
    bucketSpec b g = none ↔ g = [] := by
  cases g with
  | nil => simp [bucketSpec]
  | cons x rest => simp [bucketSpec]

theorem bucketSpec_concat (b : ℚ) (g : List (ℚ × ℚ)) (t p : ℚ) (hg : g ≠ []) :
    bucketSpec b (g ++ [(t, p)]) =
      (bucketSpec b g).map (fun bu =>
        ⟨bu.time, bu.open_, max bu.high p, min bu.low p, p, bu.count + 1⟩) := by
  cases g with
  | nil => exact absurd rfl hg
  | cons x rest =>
    obtain ⟨t0, p0⟩ := x
    have hl : ((t0, p0) :: (rest ++ [(t, p)])).getLast? = some (t, p) := by
      rw [← List.cons_append, List.getLast?_concat]
    simp [bucketSpec, List.foldl_append, hl]

theorem bucketGroup_concat (period b : ℚ) (ts : List (List ℚ)) (t : List ℚ) :
    bucketGroup period b (ts ++ [t]) = bucketGroup period b ts ++
      (match t with
       | a :: p :: _ => if tickBucket period a = b then [(a, p)] else []
       | _ => []) := by
  simp only [bucketGroup, validTicks, List.filterMap_append, List.filter_append]
  congr 1
  cases t with
  | nil => simp
  | cons a t1 =>
    cases t1 with
    | nil => simp
    | cons p rest => by_cases hb : tickBucket period a = b <;> simp [hb]

theorem foldTicks_get (period : ℚ) (ticks : List (List ℚ)) (b : ℚ) :
    AList.get (foldTicks period ticks) b =
      bucketSpec b (bucketGroup period b ticks) := by
  induction ticks using List.reverseRecOn with
  | nil => rfl
  | append_singleton ts t ih =>
    rw [foldTicks, List.foldl_append, List.foldl_cons, List.foldl_nil,
      bucketGroup_concat]
    have hstep : List.foldl (tickStep period) [] ts = foldTicks period ts := rfl
    rw [hstep]
    cases t with
    | nil => simpa [tickStep] using ih
    | cons a t1 =>
      cases t1 with
      | nil => simpa [tickStep] using ih
      | cons p rest =>
        simp only [tickStep]
        by_cases hb : tickBucket period a = b
        · rw [hb, if_pos rfl]
          cases hacc : AList.get (foldTicks period ts) b with
          | none =>
            have hgrp : bucketGroup period b ts = [] :=
              (bucketSpec_eq_none b _).mp (hacc ▸ ih).symm
            simp only [hacc]
            rw [AList.get_append_self _ _ _ hacc, hgrp]
            simp [bucketSpec]
          | some bu =>
            have hgrp : bucketGroup period b ts ≠ [] := by
              intro h0
              rw [h0] at ih
              rw [hacc] at ih
              exact absurd ih.symm (by simp [bucketSpec])
            simp only [hacc]
            rw [AList.get_set_self, bucketSpec_concat _ _ _ _ hgrp, ← ih, hacc]
            rfl
        · rw [if_neg hb, List.append_nil]
          cases hacc : AList.get (foldTicks period ts) (tickBucket period a) with
          | none =>
            simp only [hacc]
            rw [AList.get_append_ne _ hb, ih]
          | some bu =>
            simp only [hacc]
            rw [AList.get_set_ne _ _ _ _ hb, ih]

theorem filter_ne_idem (s : List ℕ) (cb : ℕ) :
    (s.filter (fun x => x != cb)).filter (fun x => x != cb) =
      s.filter (fun x => x != cb) := by
  rw [List.filter_filter]
  congr 1
  funext x
  exact Bool.and_self _

theorem AList.get_ensure (m : List (α × β)) (a : α) (v : β) :
    get (ensure m a v) a = some ((get m a).getD v) := by
  unfold ensure
  cases h : get m a with
  | some w => simp [h]
  | none => simp [h, AList.get_append_self m a v h]

theorem AList.get_ensure_ne (m : List (α × β)) (a b : α) (v : β) (h : a ≠ b) :
    get (ensure m a v) b = get m b := by
  unfold ensure
  cases hc : get m a <;> simp [AList.get_append_ne v h]

theorem handleTickUpdate_state_frame (st : MDState) (v : JVal) :
    (handleTickUpdate st v).1.candleStreams = st.candleStreams ∧
    (handleTickUpdate st v).1.subscriptions = st.subscriptions := by
  cases v with
  | num q => exact ⟨rfl, rfl⟩
  | str s => exact ⟨rfl, rfl⟩
  | arr l =>
    simp only [handleTickUpdate]
    repeat' split
    all_goals exact ⟨rfl, rfl⟩

theorem handleHistoryResponse_get_frame (cs : List (String × List Candle))
    (d : MsgData) (a : String) (hne : d.asset ≠ some a) :
    AList.get (handleHistoryResponse cs d) a = AList.get cs a := by
  unfold handleHistoryResponse
  cases hA : d.asset with
  | none => rfl
  | some b =>
    have hb : b ≠ a := fun hc => hne (hA ▸ hc ▸ rfl)
    by_cases hbe : b = ""
    · simp [hbe]
    · simp only [if_neg hbe]
      split_ifs <;>
        simp [AList.get_set_ne _ _ _ _ hb, AList.get_ensure_ne _ _ _ _ hb]

theorem handleHistoryResponse_get_congr (cs₁ cs₂ : List (String × List Candle))
    (d : MsgData) (a : String)
    (h : AList.get cs₁ a = AList.get cs₂ a) :
    AList.get (handleHistoryResponse cs₁ d) a =
      AList.get (handleHistoryResponse cs₂ d) a := by
  cases hA : d.asset with
  | none => simp [handleHistoryResponse, hA, h]
  | some b =>
    by_cases hb : b = a
    · subst hb
      unfold handleHistoryResponse
      rw [hA]
      by_cases hbe : b = ""
      · simp only [if_pos hbe]
        exact h
      · simp only [if_neg hbe]
        split_ifs with hsA hsB
        · rw [AList.get_set_self, AList.get_set_self, h]
        · rw [AList.get_set_self, AList.get_set_self, h]
        · rw [AList.get_ensure, AList.get_ensure, h]
    · rw [handleHistoryResponse_get_frame _ _ _ (by simp [hA, hb]),
        handleHistoryResponse_get_frame _ _ _ (by simp [hA, hb]), h]

theorem handleCandleUpdate_get_congr (cs₁ cs₂ : List (String × List Candle))
    (d : MsgData) (a : String)
    (h : AList.get cs₁ a = AList.get cs₂ a) :
    AList.get (handleCandleUpdate cs₁ d) a =
      AList.get (handleCandleUpdate cs₂ d) a := by
  unfold handleCandleUpdate
  split_ifs with hd
  · exact handleHistoryResponse_get_congr _ _ _ _ h
  · cases hA : d.asset with
    | none => exact h
    | some b =>
      by_cases hbe : b = ""
      · simp only [if_pos hbe]
        exact h
      · simp only [if_neg hbe]
        by_cases hb : b = a
        · subst hb
          rw [AList.get_set_self, AList.get_set_self, h]
        · rw [AList.get_set_ne _ _ _ _ hb, AList.get_set_ne _ _ _ _ hb,
            AList.get_ensure_ne _ _ _ _ hb, AList.get_ensure_ne _ _ _ _ hb, h]

theorem stepEvent_get_congr (st₁ st₂ : MDState) (ev : InEvent) (a : String)
    (h : AList.get st₁.candleStreams a = AList.get st₂.candleStreams a) :
    AList.get (stepEvent st₁ ev).candleStreams a =
      AList.get (stepEvent st₂ ev).candleStreams a := by
  cases ev with
  | candles d => exact handleCandleUpdate_get_congr _ _ _ _ h
  | instruments d => exact handleCandleUpdate_get_congr _ _ _ _ h
  | tick v =>
    show AList.get (handleTickUpdate st₁ v).1.candleStreams a =
      AList.get (handleTickUpdate st₂ v).1.candleStreams a
    rw [(handleTickUpdate_state_frame st₁ v).1,
      (handleTickUpdate_state_frame st₂ v).1]
    exact h

theorem lastOrJs_currentJs (series : List ℚ) (d : ℚ) :
    currentJs series d (lastOrJs series d) := by
  constructor
  · intro h
    simp [lastOrJs, h]
  · intro x hx
    simp [lastOrJs, hx]

theorem currentJs_nil (d : ℚ) : currentJs [] d d :=
  ⟨fun _ => rfl, fun x hx => by simp at hx⟩

theorem calculateEMAgo_ok_length (k prev : ℚ) (l out : List ℚ)
    (h : calculateEMAgo k prev l = .ok out) : out.length = l.length := by
  induction l generalizing prev out with
  | nil =>
    have h0 : (Except.ok [] : Except String (List ℚ)) = .ok out := h
    injection h0 with h2
    simp [← h2]
  | cons p rest ih =>
    simp only [calculateEMAgo] at h
    by_cases h1 : p = 0 ∨ prev = 0
    · rw [if_pos h1] at h
      cases h
    · rw [if_neg h1] at h
      revert h
      cases hrec : calculateEMAgo k (p * k + prev * (1 - k)) rest with
      | error e =>
        intro h
        cases h
      | ok l2 =>
        intro h
        injection h with h2
        simp [← h2, ih _ _ hrec]

theorem calculateEMA_ok_length (values : List ℚ) (period : ℕ) (l : List ℚ)
    (h : calculateEMA values period = .ok l) : l.length = max values.length 1 := by
  simp only [calculateEMA] at h
  revert h
  cases hgo : calculateEMAgo (2 / ((period : ℚ) + 1)) (values.headD 0)
      values.tail with
  | error e =>
    intro h
    exact absurd h (by simp)
  | ok l2 =>
    intro h
    injection h with h2
    have hlen := calculateEMAgo_ok_length _ _ _ _ hgo
    rw [← h2]
    simp only [List.length_cons, hlen]
    cases values with
    | nil => simp
    | cons v rest => simp

theorem replay_get_congr (evs : List InEvent) (st₁ st₂ : MDState) (a : String)
    (h : AList.get st₁.candleStreams a = AList.get st₂.candleStreams a) :
    AList.get (replay st₁ evs).candleStreams a =
      AList.get (replay st₂ evs).candleStreams a := by
  induction evs generalizing st₁ st₂ with
  | nil => exact h
  | cons ev rest ih =>
    simp only [replay, List.foldl_cons]
    exact ih _ _ (stepEvent_get_congr _ _ _ _ h)

end Lemmas

/-! ### Claim theorems -/

/-- C4 (amended): no indicator family throws except the shared EMA calculator,
    which returns the `"price or prevEma is undefined"` exception whenever it
    encounters a zero price (beyond the first) or a zero running EMA value,
    and otherwise an array of one entry per input (one entry total for empty
    input).  Every family's `current` equals the last element of its series
    when that element is non-zero, and the documented default (`0`, `50`, or a
    zero/empty struct) when the series is empty *or its last element is `0`*
    (the JS `||` fallback; `currentJs` is exactly that relation) — except
    MACD, whose `?? 0` current components equal the last entries exactly, and
    ADX's DI components and Ichimoku's currents, which are read from the
    pre-rounding series rather than the published rounded arrays. -/
theorem indicator_current_semantics (sqrtFn : ℚ → ℚ) :
    (∀ (candles : List Candle) (period : ℕ) (tf : ℚ),
      currentJs (calculateRSI candles period tf).rsi 50
        (calculateRSI candles period tf).current) ∧
    (∀ (candles : List Candle) (f sl sg : ℕ) (tf : ℚ),
      (calculateMACD candles f sl sg tf).current =
        ⟨(calculateMACD candles f sl sg tf).macd.getLastD 0,
          (calculateMACD candles f sl sg tf).signal.getLastD 0,
          (calculateMACD candles f sl sg tf).histogram.getLastD 0⟩) ∧
    (∀ (candles : List Candle) (period : ℕ) (std tf : ℚ),
      currentJs (calculateBollingerBands sqrtFn candles period std tf).upper 0
        (calculateBollingerBands sqrtFn candles period std tf).current.upper ∧
      currentJs (calculateBollingerBands sqrtFn candles period std tf).middle 0
        (calculateBollingerBands sqrtFn candles period std tf).current.middle ∧
      currentJs (calculateBollingerBands sqrtFn candles period std tf).lower 0
        (calculateBollingerBands sqrtFn candles period std tf).current.lower) ∧
    (∀ (candles : List Candle) (period : ℕ) (tf : ℚ),
      currentJs (IndicatorManager.calculateSMA candles period tf).sma 0
        (IndicatorManager.calculateSMA candles period tf).current) ∧
    (∀ (candles : List Candle) (period : ℕ) (tf : ℚ),
      currentJs (IndicatorManager.calculateATR candles period tf).atr 0
        (IndicatorManager.calculateATR candles period tf).current) ∧
    (∀ (candles : List Candle) (kp dp : ℕ) (tf : ℚ),
      currentJs (IndicatorManager.calculateStochastic candles kp dp tf).k 50
        (IndicatorManager.calculateStochastic candles kp dp tf).current.k ∧
      currentJs (IndicatorManager.calculateStochastic candles kp dp tf).d 50
        (IndicatorManager.calculateStochastic candles kp dp tf).current.d) ∧
    (∀ (highs lows closes : List ℚ) (period : ℕ),
      currentJs (calculateADX highs lows closes period).adx 0
        (calculateADX highs lows closes period).current.adx ∧
      (highs.length < period + 1 →
        calculateADX highs lows closes period = ⟨[], [], [], ⟨0, 0, 0⟩⟩) ∧
      (¬ highs.length < period + 1 →
        (calculateADX highs lows closes period).current.plusDI =
          lastOrJs (adxRaw highs lows closes period).2.1 0 ∧
        (calculateADX highs lows closes period).plusDI =
          ((adxRaw highs lows closes period).2.1).map round2 ∧
        (calculateADX highs lows closes period).current.minusDI =
          lastOrJs (adxRaw highs lows closes period).2.2 0 ∧
        (calculateADX highs lows closes period).minusDI =
          ((adxRaw highs lows closes period).2.2).map round2)) ∧
    (∀ (highs lows : List ℚ) (tk kj sb : ℕ),
      (highs.length < sb →
        calculateIchimoku highs lows tk kj sb =
          ⟨[], [], [], [], [], ⟨0, 0, 0, 0, 0⟩⟩) ∧
      (¬ highs.length < sb →
        (calculateIchimoku highs lows tk kj sb).current =
          ⟨lastOrJs (donchian highs lows tk) 0,
            lastOrJs (donchian highs lows kj) 0,
            lastOrJs (senkouAOf (donchian highs lows tk)
              (donchian highs lows kj)) 0,
            lastOrJs (donchian highs lows sb) 0,
            lastOrJs (lows.drop kj) 0⟩ ∧
        (calculateIchimoku highs lows tk kj sb).tenkan =
          (donchian highs lows tk).map round2)) ∧
    (∀ (values : List ℚ) (period : ℕ),
      (∃ l, calculateEMA values period = .ok l ∧
        l.length = max values.length 1) ∨
      calculateEMA values period = .error "price or prevEma is undefined") ∧
    (∀ (candles : List Candle) (period : ℕ) (tf : ℚ) (r : EMAResult),
      IndicatorManager.calculateEMA candles period tf = .ok r →
        currentJs r.ema 0 r.current) := by
  refine ⟨?_, ?_, ?_, ?_, ?_, ?_, ?_, ?_, ?_, ?_⟩
  · intro candles period tf
    exact lastOrJs_currentJs _ _
  · intro candles f sl sg tf
    by_cases hc : (candles.map (·.close)).length = 0
    · simp [calculateMACD, hc, List.getLastD]
    · simp only [calculateMACD, if_neg hc]
  · intro candles period std tf
    exact ⟨lastOrJs_currentJs _ _, lastOrJs_currentJs _ _, lastOrJs_currentJs _ _⟩
  · intro candles period tf
    exact lastOrJs_currentJs _ _
  · intro candles period tf
    exact lastOrJs_currentJs _ _
  · intro candles kp dp tf
    exact ⟨lastOrJs_currentJs _ _, lastOrJs_currentJs _ _⟩
  · intro highs lows closes period
    by_cases hg : highs.length < period + 1
    · have hr : calculateADX highs lows closes period = ⟨[], [], [], ⟨0, 0, 0⟩⟩ := by
        simp [calculateADX, hg]
      rw [hr]
      exact ⟨currentJs_nil 0, fun _ => rfl, fun hng => absurd hg hng⟩
    · have hr : calculateADX highs lows closes period =
          ⟨(adxRaw highs lows closes period).1,
            ((adxRaw highs lows closes period).2.1).map round2,
            ((adxRaw highs lows closes period).2.2).map round2,
            ⟨lastOrJs (adxRaw highs lows closes period).1 0,
              lastOrJs (adxRaw highs lows closes period).2.1 0,
              lastOrJs (adxRaw highs lows closes period).2.2 0⟩⟩ := by
        simp [calculateADX, hg]
      rw [hr]
      exact ⟨lastOrJs_currentJs _ _, fun hcon => absurd hcon hg,
        fun _ => ⟨rfl, rfl, rfl, rfl⟩⟩
  · intro highs lows tk kj sb
    by_cases hg : highs.length < sb
    · have hr : calculateIchimoku highs lows tk kj sb =
          ⟨[], [], [], [], [], ⟨0, 0, 0, 0, 0⟩⟩ := by
        simp [calculateIchimoku, hg]
      exact ⟨fun _ => hr, fun hng => absurd hg hng⟩
    · have hr : calculateIchimoku highs lows tk kj sb =
          ⟨(donchian highs lows tk).map round2,
            (donchian highs lows kj).map round2,
            (senkouAOf (donchian highs lows tk) (donchian highs lows kj)).map
              round2,
            (donchian highs lows sb).map round2,
            ((lows.drop kj)).map round2,
            ⟨lastOrJs (donchian highs lows tk) 0,
              lastOrJs (donchian highs lows kj) 0,
              lastOrJs (senkouAOf (donchian highs lows tk)
                (donchian highs lows kj)) 0,
              lastOrJs (donchian highs lows sb) 0,
              lastOrJs (lows.drop kj) 0⟩⟩ := by
        simp [calculateIchimoku, hg]
      exact ⟨fun hcon => absurd hcon hg, fun _ => by rw [hr]; exact ⟨rfl, rfl⟩⟩
  · intro values period
    cases hv : calculateEMA values period with
    | ok l => exact Or.inl ⟨l, rfl, calculateEMA_ok_length _ _ _ hv⟩
    | error e =>
      exact Or.inr (congrArg Except.error (calculateEMA_error_msg _ _ _ hv))
  · intro candles period tf r h
    simp only [IndicatorManager.calculateEMA] at h
    revert h
    cases hema : calculateEMA (candles.map (fun c => c.close)) period with
    | error e =>
      intro h
      exact absurd h (by simp)
    | ok ema =>
      intro h
      injection h with h2
      rw [← h2]
      exact lastOrJs_currentJs _ _

/-- Witness for C4 at concrete inputs: the ADX and Ichimoku short-input
    guards. -/
theorem indicator_current_semantics_w :
    calculateADX [1] [1] [1] 14 = ⟨[], [], [], ⟨0, 0, 0⟩⟩ ∧
    calculateIchimoku [1] [1] 9 26 52 = ⟨[], [], [], [], [], ⟨0, 0, 0, 0, 0⟩⟩ :=
  ⟨((indicator_current_semantics (fun q => q)).2.2.2.2.2.2.1
      [1] [1] [1] 14).2.1 (by decide),
    ((indicator_current_semantics (fun q => q)).2.2.2.2.2.2.2.1
      [1] [1] 9 26 52).1 (by decide)⟩

/-- Counterexample for C4 as stated: (a) on the strictly decreasing closes
    `[2, 1]` with period 1, `calculateRSI` computes the series `[0]` but its
    `current` is `50` — not the last element of the (non-empty) series —
    because the JS `|| 50` fallback also fires on the value `0`; (b) the
    shared EMA calculator throws on input `[1, 0]` instead of returning a
    result. -/
theorem indicator_claim_cex :
    (calculateRSI [⟨0, 0, 0, 2, 1, none⟩, ⟨0, 0, 0, 1, 2, none⟩] 1 60).rsi =
      [0] ∧
    (calculateRSI [⟨0, 0, 0, 2, 1, none⟩, ⟨0, 0, 0, 1, 2, none⟩] 1 60).current =
      50 ∧
    calculateEMA [1, 0] 3 = .error "price or prevEma is undefined" := by
  have hrsi : computeRSI [2, 1] 1 = 0 := by
    norm_num [computeRSI, rsiGains, rsiLosses]
  refine ⟨?_, ?_, by simp [calculateEMA, calculateEMAgo]⟩
  · simp [calculateRSI, sliceJs, hrsi]
  · simp [calculateRSI, sliceJs, hrsi, lastOrJs]

/-- C5: every RSI value produced by `calculateRSI` lies in the closed interval
    `[0, 100]`, and every window of `period + 1` consecutive closes whose
    summed losses (the absolute values of the negative deltas) are zero yields
    an RSI of exactly `100`. -/
theorem rsi_in_range_and_flat_window_100 (candles : List Candle) (period : ℕ)
    (tf : ℚ) (hp : 1 ≤ period) :
    (∀ r ∈ (calculateRSI candles period tf).rsi, 0 ≤ r ∧ r ≤ 100) ∧
    (∀ prices : List ℚ, prices.length = period + 1 →
      ((prices.zip prices.tail).map (fun pr => max (pr.1 - pr.2) 0)).sum = 0 →
      computeRSI prices period = 100) := by
  constructor
  · intro r hr
    simp only [calculateRSI, List.mem_map] at hr
    obtain ⟨i, _, rfl⟩ := hr
    exact computeRSI_mem _ _
  · intro prices hlen hloss
    exact computeRSI_flat prices period hlen hp
      (by rw [rsiLosses_eq_max_sum]; exact hloss)

/-- Witness for C5 at a concrete input: period 1, the flat window `[1, 1]`. -/
theorem rsi_in_range_and_flat_window_100_w :
    (1 ≤ 1) ∧ computeRSI [1, 1] 1 = 100 :=
  ⟨le_refl 1,
    (rsi_in_range_and_flat_window_100 [] 1 60 (le_refl 1)).2 [1, 1] (by simp)
      (by simp)⟩

/-- C6: in `calculateMACD`, the rightmost `signal.length` entries of the MACD
    line, the signal line and the histogram all have the same length, and for
    every index the histogram entry equals the aligned MACD entry minus the
    signal entry (indices out of range read the common default `0`). -/
theorem macd_histogram_identity (candles : List Candle)
    (fastPeriod slowPeriod signalPeriod : ℕ) (tf : ℚ) :
    let r := calculateMACD candles fastPeriod slowPeriod signalPeriod tf
    let tail := r.macd.drop (r.macd.length - r.signal.length)
    tail.length = r.signal.length ∧
    r.histogram.length = r.signal.length ∧
    ∀ i : ℕ, r.histogram.getD i 0 = tail.getD i 0 - r.signal.getD i 0 := by
  show _ ∧ _ ∧ _
  by_cases hc : (candles.map (·.close)).length = 0
  · simp only [calculateMACD, if_pos hc]
    refine ⟨?_, ?_, fun i => ?_⟩ <;> simp [List.getD]
  · simp only [calculateMACD, if_neg hc]
    set M := macdLineOf (candles.map (·.close)) fastPeriod slowPeriod with hM
    set S := MACD.calculateEMA M signalPeriod with hS
    have hlen : S.length = M.length := MACD.calculateEMA_length M signalPeriod
    have hsub : M.length - S.length = 0 := by omega
    have hH : (histogramOf M S).length = S.length := by
      simp [histogramOf]
    refine ⟨?_, hH, fun i => ?_⟩
    · simp [hsub, hlen]
    · rcases lt_or_le i S.length with h | h
      · have h1 : (histogramOf M S).getD i 0 =
            M.getD (i + (M.length - S.length)) 0 - S.getD i 0 := by
          simp only [histogramOf]
          rw [getD_map_range, if_pos h]
        rw [h1, hsub, Nat.add_zero, getD_drop, Nat.zero_add]
      · rw [getD_of_length_le _ _ _ (by omega : (histogramOf M S).length ≤ i),
          getD_of_length_le _ _ _ (by simp; omega : (M.drop (M.length - S.length)).length ≤ i),
          getD_of_length_le _ _ _ h]
        ring

/-- C9: `calculateIndicator` requests candles with a lookback offset of
    `100 × timeframe`; it yields the explicit
    "No candles available for indicator calculation" error exactly when the
    fetch returned zero candles, and otherwise delegates to the indicator
    engine and returns its result unchanged. -/
theorem calculateIndicator_fetch_contract (sqrtFn : ℚ → ℚ)
    (options : IndicatorOptions) (fetched : List Candle) :
    (calculateIndicatorRequest options).offset = options.timeframe * 100 ∧
    (calculateIndicator sqrtFn fetched options =
        .error "No candles available for indicator calculation" ↔ fetched = []) ∧
    (fetched ≠ [] → calculateIndicator sqrtFn fetched options =
        IndicatorManager.calculate sqrtFn fetched options) := by
  refine ⟨rfl, ⟨?_, ?_⟩, ?_⟩
  · intro h
    by_contra hne
    rw [calculateIndicator,
      if_neg (fun h0 => hne (List.length_eq_zero.mp h0))] at h
    exact IndicatorManager.calculate_ne_noCandles sqrtFn fetched options h
  · intro h
    subst h
    rfl
  · intro hne
    rw [calculateIndicator, if_neg (fun h0 => hne (List.length_eq_zero.mp h0))]

/-- C1 (amended): when `handleHistoryResponse` processes a payload with usable
    data, the asset's buffer becomes the old buffer plus the parsed/aggregated
    candles, truncated and sorted: its length is `min (old + new) 1000` — in
    particular exactly 1000 once more than 1000 candles accumulated — and it
    is sorted (non-strictly) ascending by time.  Eviction is positional: the
    first-appended entries are spliced out *before* the sort, so the survivors
    are the 1000 most recent by time only when the buffer was accumulated in
    ascending time order, and entries are never deduplicated by time. -/
theorem handleHistoryResponse_cap_and_sort (cs : List (String × List Candle))
    (d : MsgData) (asset : String) (ha : d.asset = some asset)
    (hne : asset ≠ "") (h : shapeA d = true ∨ shapeB d = true) :
    ∃ buf, AList.get (handleHistoryResponse cs d) asset = some buf ∧
      buf.length =
        min (((AList.get cs asset).getD []).length + (ingested d).length) 1000 ∧
      buf.Sorted candleLe := by
  refine ⟨_, handleHistoryResponse_processed cs d asset ha hne h, ?_, ?_⟩
  · rw [finalize_length, List.length_append]
  · exact finalize_sorted _

/-- Witness for C1 at a concrete input: a two-tuple payload over an empty
    state. -/
theorem handleHistoryResponse_cap_and_sort_w :
    ∃ buf, AList.get (handleHistoryResponse [] { asset := some "X", candles := some [.arr [5, 1, 2, 3, 4], .arr [3, 1, 2, 3, 4]] }) "X" = some buf ∧ buf.length = min (((AList.get ([] : List (String × List Candle)) "X").getD []).length + (ingested { asset := some "X", candles := some [.arr [5, 1, 2, 3, 4], .arr [3, 1, 2, 3, 4]] }).length) 1000 ∧ buf.Sorted candleLe :=
  handleHistoryResponse_cap_and_sort [] { asset := some "X", candles := some [.arr [5, 1, 2, 3, 4], .arr [3, 1, 2, 3, 4]] } "X" rfl (by decide) (Or.inl (by decide))

set_option maxRecDepth 80000 in
/-- Counterexample for C1 as stated: one payload of 1001 tuple candles over an
    empty buffer, whose first entry (time 9999) is the most recent and whose
    last entry duplicates time 500.  After processing, the buffer has 1000
    entries but still contains the oldest time 1, has evicted the most recent
    time 9999 (eviction is positional, before sorting), and holds two entries
    with time 500 (no deduplication). -/
theorem handleHistoryResponse_claim_cex :
    (let buf := (AList.get (handleHistoryResponse [] { asset := some "X", period := some 60, candles := some (PEntry.arr [9999, 1, 2, 3, 4] :: ((List.range 999).map (fun i => PEntry.arr [((i + 1 : ℕ) : ℚ), 1, 2, 3, 4]) ++ [PEntry.arr [500, 1, 2, 3, 4]])) }) "X").getD []
     buf.length = 1000 ∧
     buf.countP (fun c => c.time = 500) = 2 ∧
     buf.all (fun c => decide (c.time ≠ 9999)) ∧
     buf.any (fun c => decide (c.time = 1))) := by decide

/-- C2 (amended): each well-formed `[timestamp, price]` tick of a shape-B
    history payload with `period > 0` is assigned to the bucket
    `floor(timestamp / period) * period`, and for every bucket the resulting
    aggregate has `open` equal to the price of the first tick of that bucket
    in *array (ingestion) order* — not time order — `close` the last in array
    order, `high`/`low` the maximum/minimum price, and a tick count (published
    as the candle's volume).  `bucketSpec` spells out exactly these fields
    over the bucket's ticks in array order. -/
theorem history_bucketing_by_array_order (period : ℚ) (ticks : List (List ℚ))
    (b : ℚ) (hp : 0 < period) :
    AList.get (foldTicks period ticks) b =
      bucketSpec b (bucketGroup period b ticks) ∧
    ∀ bu : Bucket, (bucketCandle bu).volume = some (bu.count : ℚ) :=
  ⟨foldTicks_get period ticks b, fun _ => rfl⟩

/-- Witness for C2 at a concrete input. -/
theorem history_bucketing_by_array_order_w :
    AList.get (foldTicks 10 [[12, 5]]) 10 =
      bucketSpec 10 (bucketGroup 10 10 [[12, 5]]) :=
  (history_bucketing_by_array_order 10 [[12, 5]] 10 (by decide)).1

/-- Counterexample for C2 as stated: ticks `[12, 5]` then `[11, 7]` with
    period 10 share bucket 10; the code's candle has `open = 5` (first in
    array order) and `close = 7`, while the first tick in time order within the
    bucket is `(11, 7)` with price `7 ≠ 5` — so "open equals the price of the
    first tick in time order" fails (and symmetrically for close). -/
theorem history_bucketing_claim_cex :
    AList.get (foldTicks 10 [[12, 5], [11, 7]]) 10 =
      some ⟨10, 5, 7, 5, 7, 2⟩ ∧
    (bucketGroup 10 10 [[12, 5], [11, 7]]).insertionSort (fun x y => x.1 ≤ y.1) =
      [(11, 7), (12, 5)] ∧
    (5 : ℚ) ≠ 7 := by
  have h1 : tickBucket 10 12 = 10 := by
    norm_num [tickBucket]
  have h2 : tickBucket 10 11 = 10 := by
    norm_num [tickBucket]
  refine ⟨?_, ?_, by norm_num⟩
  · simp [foldTicks, tickStep, AList.get, AList.set, h1, h2]
    norm_num
  · simp [bucketGroup, validTicks, h1, h2, List.insertionSort, List.orderedInsert]
    norm_num

/-- C3 (amended): `handleTickUpdate` never modifies the candle buffers or the
    subscription registry — the synthetic single-price candle
    (`open = high = low = close = price`, volume 1) is only *delivered* to the
    asset's candle-stream callbacks (and the tick is appended to the price
    stream); it is not appended to the per-asset candle buffer. -/
theorem handleTickUpdate_frame_and_synthetic (st : MDState) (v : JVal) :
    (handleTickUpdate st v).1.candleStreams = st.candleStreams ∧
    (handleTickUpdate st v).1.subscriptions = st.subscriptions ∧
    ∀ cb c, (cb, c) ∈ (handleTickUpdate st v).2 →
      c.open_ = c.close ∧ c.high = c.close ∧ c.low = c.close ∧
        c.volume = some 1 := by
  cases v with
  | num q => exact ⟨rfl, rfl, fun cb c h => by cases h⟩
  | str s => exact ⟨rfl, rfl, fun cb c h => by cases h⟩
  | arr l =>
    simp only [handleTickUpdate]
    repeat' split
    all_goals refine ⟨rfl, rfl, fun cb c h => ?_⟩
    all_goals
      first
        | cases h
        | (simp only [List.mem_map] at h
           obtain ⟨cb2, _, heq⟩ := h
           obtain ⟨rfl, rfl⟩ := Prod.mk.injEq .. ▸ heq
           exact ⟨rfl, rfl, rfl, rfl⟩)

/-- Witness for C3 at a concrete input: one registered callback receives the
    synthetic single-price candle. -/
theorem handleTickUpdate_frame_and_synthetic_w :
    ∃ c : Candle,
      (3, c) ∈ (handleTickUpdate ⟨[], [], [(.candles "A" 0, [3])]⟩
        (.arr [.str "A", .num 100, .num 7])).2 ∧
      c.open_ = c.close ∧ c.volume = some 1 := by
  refine ⟨⟨7, 7, 7, 7, 100, some 1⟩, by decide, ?_⟩
  have h := (handleTickUpdate_frame_and_synthetic
    ⟨[], [], [(.candles "A" 0, [3])]⟩
    (.arr [.str "A", .num 100, .num 7])).2.2 3 ⟨7, 7, 7, 7, 100, some 1⟩
    (by decide)
  exact ⟨h.1, h.2.2.2⟩

/-- Counterexample for C3 as stated: a valid tick for an asset with no buffer
    leaves `candleStreams` without any entry for the asset (the price stream
    shows the tick was accepted and processed), so the synthetic candle is in
    no candle buffer. -/
theorem handleTickUpdate_claim_cex :
    AList.get (handleTickUpdate ⟨[], [], []⟩
        (.arr [.str "EURUSD", .num 100, .num 7])).1.candleStreams "EURUSD" =
      none ∧
    (handleTickUpdate ⟨[], [], []⟩
        (.arr [.str "EURUSD", .num 100, .num 7])).1.priceStreams =
      [("EURUSD", [⟨"EURUSD", 7, 100⟩])] := by decide

/-- C7 (amended): the type-4 object classification is exclusive — every object
    payload is delivered to exactly one channel, `candles` when the candles
    rule matches and `message` otherwise; no payload is delivered to both. -/
theorem classifyType4Object_exclusive (p : Type4Object) :
    classifyType4Object p =
      (if candlesRule p then ["candles"] else ["message"]) ∧
    ¬("candles" ∈ classifyType4Object p ∧ "message" ∈ classifyType4Object p) := by
  unfold classifyType4Object candlesRule
  split_ifs with h1 h2 h3 h4 h5 h6 <;> simp_all <;> decide

/-- Counterexample for C7 as stated: a payload with a `candles` field is
    delivered to the `candles` channel only — `message` does not receive it in
    addition. -/
theorem classifyType4Object_claim_cex :
    classifyType4Object
        ⟨true, false, false, false, false, false, false, false, false, false,
          false, false⟩ = ["candles"] ∧
      "message" ∉ classifyType4Object
        ⟨true, false, false, false, false, false, false, false, false, false,
          false, false⟩ := by decide

/-- C8 (amended): calling the cancel handle a second time leaves the
    subscription registry in the same state and raises no error (removal from
    the callback set is idempotent), but the `depth/unfollow` command is sent
    again whenever the key's callback set is empty after the first call — the
    command sequence is `once.msgs` plus one more unfollow in that case. -/
theorem cancelCandleStream_twice (st : MDState) (msgs : List OutMsg)
    (asset : String) (period : ℚ) (cb : ℕ) :
    (cancelCandleStream (cancelCandleStream st msgs asset period cb).1
        (cancelCandleStream st msgs asset period cb).2 asset period cb).1 =
      (cancelCandleStream st msgs asset period cb).1 ∧
    (cancelCandleStream (cancelCandleStream st msgs asset period cb).1
        (cancelCandleStream st msgs asset period cb).2 asset period cb).2 =
      (cancelCandleStream st msgs asset period cb).2 ++
        (if AList.get (cancelCandleStream st msgs asset period cb).1.subscriptions
            (SubKey.candles asset period) = some ([] : List ℕ) then
          [OutMsg.depthUnfollow asset]
        else []) := by
  cases h : AList.get st.subscriptions (SubKey.candles asset period) with
  | none =>
    have honce : cancelCandleStream st msgs asset period cb = (st, msgs) := by
      simp [cancelCandleStream, h]
    simp [honce, h]
  | some s =>
    by_cases hs : s.filter (fun x => x != cb) = []
    · simp [cancelCandleStream, h, hs, AList.get_set_self, filter_ne_idem,
        AList.set_set]
    · simp [cancelCandleStream, h, hs, AList.get_set_self, filter_ne_idem,
        AList.set_set]

/-- Counterexample for C8 as stated: with one subscription, cancelling twice
    sends `depth/unfollow` twice — the outbound command sequence differs from
    cancelling once. -/
theorem cancelCandleStream_claim_cex :
    (let s1 := subscribeToCandleStream ⟨[], [], []⟩ [] "EURUSD" 60 0
     let once := cancelCandleStream s1.1 s1.2 "EURUSD" 60 0
     let twice := cancelCandleStream once.1 once.2 "EURUSD" 60 0
     twice.2 ≠ once.2 ∧ twice.1 = once.1) := by decide

/-- C10: `getCandles` deletes the asset's in-memory candle buffer up front
    (its first action, before the `history/load` send): afterwards the
    asset's buffer lookup is empty while every other asset's buffer is
    unchanged, and for any sequence of subsequent inbound events, the asset's
    buffer after replaying them does not depend on the pre-call state — the
    candles returned derive only from data received after the call. -/
theorem getCandles_clears_and_isolates (st1 st2 : MDState)
    (options : CandleOptions) (now : ℚ) (evs : List InEvent) :
    AList.get (getCandlesState st1 options.asset).candleStreams options.asset =
      none ∧
    (∀ b, b ≠ options.asset →
      AList.get (getCandlesState st1 options.asset).candleStreams b =
        AList.get st1.candleStreams b) ∧
    ((getCandlesTrace options now).get? 0 =
        some (Act.deleteBuffer options.asset) ∧
      (getCandlesTrace options now).get? 3 =
        some (Act.send (.historyLoad options.asset now (options.endTime.getD now)
          options.offset options.period))) ∧
    AList.get (replay (getCandlesState st1 options.asset) evs).candleStreams
        options.asset =
      AList.get (replay (getCandlesState st2 options.asset) evs).candleStreams
        options.asset := by
  dsimp only [getCandlesState]
  refine ⟨AList.get_erase_self _ _, fun b hb => ?_, ⟨rfl, rfl⟩, ?_⟩
  · exact AList.get_erase_ne _ _ _ (Ne.symm hb)
  · exact replay_get_congr evs _ _ _
      (by dsimp only [getCandlesState]
          rw [AList.get_erase_self, AList.get_erase_self])

/-- Witness for C10 at a concrete input: buffers of another asset survive, and
    a replayed history event rebuilds the same buffer from either pre-state. -/
theorem getCandles_clears_and_isolates_w :
    AList.get (getCandlesState ⟨[("B", [⟨1, 1, 1, 1, 5, none⟩])], [], []⟩
        "A").candleStreams "B" =
      AList.get (⟨[("B", [⟨1, 1, 1, 1, 5, none⟩])], [], []⟩ :
        MDState).candleStreams "B" :=
  (getCandles_clears_and_isolates ⟨[("B", [⟨1, 1, 1, 1, 5, none⟩])], [], []⟩
    ⟨[], [], []⟩ ⟨"A", none, 600, 60⟩ 0 []).2.1 "B" (by decide)

/-- Witness for C9 at a concrete input: a one-candle fetch delegates to the
    engine. -/
theorem calculateIndicator_fetch_contract_w :
    ([(⟨1, 1, 1, 1, 5, none⟩ : Candle)] ≠ []) ∧
    calculateIndicator (fun q => q) [⟨1, 1, 1, 1, 5, none⟩]
        ⟨"EURUSD", .RSI, {}, 60⟩ =
      IndicatorManager.calculate (fun q => q) [⟨1, 1, 1, 1, 5, none⟩]
        ⟨"EURUSD", .RSI, {}, 60⟩ :=
  ⟨by simp, (calculateIndicator_fetch_contract (fun q => q) ⟨"EURUSD", .RSI, {}, 60⟩
    [⟨1, 1, 1, 1, 5, none⟩]).2.2 (by simp)⟩

end Quotex
